import Mathlib

/-!
Verification of the key-representation core of askar-crypto
(src/askar-crypto/src/repr.rs).

The file shallowly embeds the trait declarations and their derived
(blanket / default) method bodies.  A Rust trait becomes a Lean structure of
operations over an opaque key type K; a blanket impl or a default method body
becomes a plain Lean function over that structure, translated line by line
from the source.  The scoped-callback accessors of the source
(with_secret_bytes, with_keypair_bytes take a callback receiving an optional
byte slice; with_public_bytes a callback receiving a plain slice) are
represented by the view they hand to the callback: an Option of a byte list
for the secret and keypair views, a plain byte list for the public view, so
the always-present nature of the public view is part of the type, exactly as
in the source signature.  A mutable byte sink (dyn WriteBuffer) is an
explicit state type S together with a write function returning the write
result and the updated state.

External collaborators that the source only declares (the error type built by
err_msg, and the SecretBytes growable auto-clearing buffer) are modelled from
the specification and marked as such on their declarations.
-/

/-- Error kinds of the external error collaborator that this core uses:
unsupported operation, missing secret key, invalid key data, and the sink
capacity failure (named ExceededBuffer by the buffer collaborator). -/
inductive ErrorKind
  | Unsupported
  | MissingSecretKey
  | InvalidKeyData
  | ExceededBuffer
  deriving DecidableEq, Repr

/-- Modelled from the spec: the external error collaborator is a tagged error
carrying a kind and a human-readable message; the message is optional because
the err_msg macro can be invoked with a kind alone. -/
structure Error where
  kind : ErrorKind
  message : Option String
  deriving DecidableEq, Repr

/-- The err_msg macro applied to a kind and a message string. -/
def err_msg (k : ErrorKind) (m : String) : Error :=
  ⟨k, some m⟩

/-- The err_msg macro applied to a kind alone. -/
def err_kind (k : ErrorKind) : Error :=
  ⟨k, none⟩

/-- Supported deterministic key generation methods (enum SeedMethod). -/
inductive SeedMethod
  | Preferred
  | BlsKeyGenDraft4
  | RandomDet
  deriving DecidableEq, Repr

/-- A seed used in key generation (enum Seed): a byte string together with a
selected generation method.  Bytes are modelled as lists of naturals. -/
inductive Seed
  | Bytes (bytes : List Nat) (method : SeedMethod)
  deriving DecidableEq, Repr

/-- The From conversion of a bare byte span into a Seed
(impl From for Seed): selects the Preferred method. -/
def Seed.from_bytes (seed : List Nat) : Seed :=
  Seed.Bytes seed SeedMethod.Preferred

/-- The default body of KeyGen.from_seed, used by every key type that has not
overridden it: it ignores the seed and fails with an Unsupported error. -/
def from_seed_default (K : Type) (_seed : Seed) : Except Error K :=
  Except.error (err_msg ErrorKind.Unsupported ("Key generation from seed not supported"))

/-- A byte sink (dyn WriteBuffer): a state type S with a single write
operation returning the write result together with the updated state. -/
structure WriteBuffer (S : Type) where
  buffer_write : S → List Nat → Except Error Unit × S

/-- The KeySecretBytes capability together with its KeyMeta bound: the
declared secret size descriptor, the constructor from secret bytes, and the
secret view handed to the with_secret_bytes callback (None on a public-only
instance). -/
structure KeySecretBytes (K : Type) where
  KeySize : Nat
  from_secret_bytes : List Nat → Except Error K
  with_secret_bytes : K → Option (List Nat)

/-- Blanket impl of ToSecretBytes.secret_bytes_length: Ok of the declared
KeySize descriptor. -/
def secret_bytes_length {K : Type} (c : KeySecretBytes K) (_k : K) : Except Error Nat :=
  Except.ok c.KeySize

/-- Blanket impl of ToSecretBytes.write_secret_bytes: run with_secret_bytes;
when the view is present write it to the sink, otherwise fail with
MissingSecretKey without touching the sink. -/
def write_secret_bytes {K S : Type} (c : KeySecretBytes K) (k : K)
    (wb : WriteBuffer S) (s : S) : Except Error Unit × S :=
  match c.with_secret_bytes k with
  | some buf => wb.buffer_write s buf
  | none => (Except.error (err_kind ErrorKind.MissingSecretKey), s)

/-- Modelled from the spec: the external SecretBytes collaborator, an owned
auto-clearing buffer allocated with an initial capacity that grows as needed,
so its write operation never fails.  Auto-clearing on drop has no observable
counterpart in a pure embedding; capacity and contents are modelled. -/
structure SecretBytes where
  capacity : Nat
  data : List Nat
  deriving DecidableEq, Repr

/-- Modelled from the spec: SecretBytes.with_capacity allocates an empty
buffer with the given initial capacity. -/
def SecretBytes.with_capacity (c : Nat) : SecretBytes :=
  ⟨c, []⟩

/-- Modelled from the spec: the WriteBuffer impl of SecretBytes appends the
bytes, growing the capacity as needed, and always succeeds. -/
def SecretBytes.buffer_write (sb : SecretBytes) (d : List Nat) : Except Error Unit × SecretBytes :=
  (Except.ok (), ⟨max sb.capacity (sb.data.length + d.length), sb.data ++ d⟩)

/-- The SecretBytes buffer seen as a byte sink. -/
def SecretBytes.sink : WriteBuffer SecretBytes :=
  ⟨SecretBytes.buffer_write⟩

/-- Default body of ToSecretBytes.to_secret_bytes: allocate a SecretBytes
buffer with capacity 128, delegate to write_secret_bytes on it, and on
success return the buffer. -/
def to_secret_bytes {K : Type} (c : KeySecretBytes K) (k : K) : Except Error SecretBytes :=
  match write_secret_bytes c k SecretBytes.sink (SecretBytes.with_capacity 128) with
  | (Except.ok _, buf) => Except.ok buf
  | (Except.error e, _) => Except.error e

/-- The KeyPublicBytes capability together with its KeypairMeta bound (which
extends KeyMeta): the three declared size descriptors, the constructor from
public bytes, and the public view handed to the with_public_bytes callback.
The view is a plain byte list, never an Option: the source callback receives
a plain slice, so absence is impossible by the type. -/
structure KeyPublicBytes (K : Type) where
  KeySize : Nat
  PublicKeySize : Nat
  KeypairSize : Nat
  from_public_bytes : List Nat → Except Error K
  with_public_bytes : K → List Nat

/-- Blanket impl of ToPublicBytes.public_bytes_length: Ok of the declared
PublicKeySize descriptor. -/
def public_bytes_length {K : Type} (c : KeyPublicBytes K) (_k : K) : Except Error Nat :=
  Except.ok c.PublicKeySize

/-- Blanket impl of ToPublicBytes.write_public_bytes: write the public view
to the sink and return the sink result directly. -/
def write_public_bytes {K S : Type} (c : KeyPublicBytes K) (k : K)
    (wb : WriteBuffer S) (s : S) : Except Error Unit × S :=
  wb.buffer_write s (c.with_public_bytes k)

/-- Default body of ToPublicBytes.to_public_bytes: allocate a SecretBytes
buffer with capacity 128, delegate to write_public_bytes on it, and on
success return the buffer. -/
def to_public_bytes {K : Type} (c : KeyPublicBytes K) (k : K) : Except Error SecretBytes :=
  match write_public_bytes c k SecretBytes.sink (SecretBytes.with_capacity 128) with
  | (Except.ok _, buf) => Except.ok buf
  | (Except.error e, _) => Except.error e

/-- The KeypairBytes capability: constructor from combined keypair bytes and
the combined view handed to the with_keypair_bytes callback (None when the
secret half is absent). -/
structure KeypairBytes (K : Type) where
  from_keypair_bytes : List Nat → Except Error K
  with_keypair_bytes : K → Option (List Nat)

/-- Default body of KeypairBytes.to_keypair_bytes_buffer: run
with_keypair_bytes; when the view is present write it to the sink, otherwise
fail with MissingSecretKey without touching the sink. -/
def to_keypair_bytes_buffer {K S : Type} (c : KeypairBytes K) (k : K)
    (wb : WriteBuffer S) (s : S) : Except Error Unit × S :=
  match c.with_keypair_bytes k with
  | some buf => wb.buffer_write s buf
  | none => (Except.error (err_kind ErrorKind.MissingSecretKey), s)

/-- Default body of KeypairBytes.to_keypair_bytes: allocate a SecretBytes
buffer with capacity 128, delegate to to_keypair_bytes_buffer on it, and on
success return the buffer. -/
def to_keypair_bytes {K : Type} (c : KeypairBytes K) (k : K) : Except Error SecretBytes :=
  match to_keypair_bytes_buffer c k SecretBytes.sink (SecretBytes.with_capacity 128) with
  | (Except.ok _, buf) => Except.ok buf
  | (Except.error e, _) => Except.error e

/-- Modelled from the spec: the implementer contract that the public view
handed out by with_public_bytes always has the declared PublicKeySize length.
Concrete key types live outside the given core, so the contract is stated as
a predicate over a capability instance. -/
def PublicLenContract {K : Type} (c : KeyPublicBytes K) : Prop :=
  ∀ k : K, (c.with_public_bytes k).length = c.PublicKeySize

/-- A simple byte sink collecting written bytes into a list; used to observe
what the derived writers emit. -/
def listSink : WriteBuffer (List Nat) :=
  ⟨fun s b => (Except.ok (), s ++ b)⟩

/-- Modelled from the spec: a concrete key type adopting the secret-bytes
capability with KeySize 32 (the example scenario of the spec).  An instance
always holds a 32-byte secret; from_secret_bytes accepts exactly-sized input
and rejects anything else with InvalidKeyData. -/
structure SpecKey where
  secret : List Nat
  len_eq : secret.length = 32

/-- Constructor of SpecKey from secret bytes, rejecting wrong lengths. -/
def SpecKey.mk_from_secret_bytes (b : List Nat) : Except Error SpecKey :=
  if h : b.length = 32 then Except.ok ⟨b, h⟩
  else Except.error (err_msg ErrorKind.InvalidKeyData ("invalid key length"))

/-- The secret-bytes capability instance of SpecKey. -/
def SpecKey.cap : KeySecretBytes SpecKey :=
  ⟨32, SpecKey.mk_from_secret_bytes, fun k => some k.secret⟩

/-- A secret-bytes capability over Unit whose view is always absent
(a public-only instance), used to evaluate theorems concretely. -/
def capNone : KeySecretBytes Unit :=
  ⟨32, fun _ => Except.error (err_kind ErrorKind.InvalidKeyData), fun _ => none⟩

/-- A secret-bytes capability over Unit whose view is always the two bytes
1, 2; used to evaluate theorems concretely. -/
def capSome : KeySecretBytes Unit :=
  ⟨2, fun _ => Except.error (err_kind ErrorKind.InvalidKeyData), fun _ => some [1, 2]⟩

/-- A keypair-bytes capability over Unit whose combined view is always
absent; used to evaluate theorems concretely. -/
def kpNone : KeypairBytes Unit :=
  ⟨fun _ => Except.error (err_kind ErrorKind.InvalidKeyData), fun _ => none⟩

/-- A public-bytes capability over Unit whose view is always the two bytes
3, 4, with PublicKeySize 2; used to evaluate theorems concretely. -/
def pubCap : KeyPublicBytes Unit :=
  ⟨32, 2, 34, fun _ => Except.error (err_kind ErrorKind.InvalidKeyData), fun _ => [3, 4]⟩

/-- C1: for every byte span and every seed method, the default from_seed of
the key-generation capability returns the Unsupported error built by the
source (never an Ok key, so no fallback to random generation is possible). -/
theorem from_seed_default_unsupported (K : Type) (bytes : List Nat) (m : SeedMethod) :
    from_seed_default K (Seed.Bytes bytes m)
      = Except.error (err_msg ErrorKind.Unsupported ("Key generation from seed not supported"))
    ∧ (from_seed_default K (Seed.Bytes bytes m)).isOk = false :=
  ⟨rfl, rfl⟩

/-- C2: for every instance and every sink, the derived write_secret_bytes
returns exactly the sink write result when the secret view is present, and
fails with the MissingSecretKey error when the view is absent. -/
theorem write_secret_bytes_spec {K S : Type} (c : KeySecretBytes K) (k : K)
    (wb : WriteBuffer S) (s : S) :
    (∀ b, c.with_secret_bytes k = some b → write_secret_bytes c k wb s = wb.buffer_write s b)
    ∧ (c.with_secret_bytes k = none →
        (write_secret_bytes c k wb s).1 = Except.error (err_kind ErrorKind.MissingSecretKey)) := by
  constructor
  · intro b hb
    simp [write_secret_bytes, hb]
  · intro hn
    simp [write_secret_bytes, hn]

/-- C2 witness: at concrete capability instances over Unit, the present view
is passed through the list sink, and the absent view yields the
MissingSecretKey error. -/
theorem write_secret_bytes_spec_witness :
    write_secret_bytes capSome () listSink [] = listSink.buffer_write [] [1, 2]
    ∧ (write_secret_bytes capNone () listSink []).1
        = Except.error (err_kind ErrorKind.MissingSecretKey) :=
  ⟨(write_secret_bytes_spec capSome () listSink []).1 [1, 2] rfl,
   (write_secret_bytes_spec capNone () listSink []).2 rfl⟩

/-- C3: on a public-only instance (absent secret view and absent keypair
view), to_secret_bytes and to_keypair_bytes both fail with the same
MissingSecretKey error. -/
theorem public_only_exports_missing {K : Type} (c : KeySecretBytes K) (kp : KeypairBytes K)
    (k : K) (hs : c.with_secret_bytes k = none) (hk : kp.with_keypair_bytes k = none) :
    to_secret_bytes c k = Except.error (err_kind ErrorKind.MissingSecretKey)
    ∧ to_keypair_bytes kp k = Except.error (err_kind ErrorKind.MissingSecretKey) := by
  constructor
  · simp [to_secret_bytes, write_secret_bytes, hs]
  · simp [to_keypair_bytes, to_keypair_bytes_buffer, hk]

/-- C3 witness: at a concrete public-only instance over Unit, both exports
fail with the MissingSecretKey error. -/
theorem public_only_exports_missing_witness :
    to_secret_bytes capNone () = Except.error (err_kind ErrorKind.MissingSecretKey)
    ∧ to_keypair_bytes kpNone () = Except.error (err_kind ErrorKind.MissingSecretKey) :=
  public_only_exports_missing capNone kpNone () rfl rfl

/-- C4: for every instance, secret_bytes_length returns Ok of the declared
KeySize and public_bytes_length returns Ok of the declared PublicKeySize;
neither has an error path. -/
theorem bytes_length_ok {K K2 : Type} (c : KeySecretBytes K) (k : K)
    (c2 : KeyPublicBytes K2) (k2 : K2) :
    secret_bytes_length c k = Except.ok c.KeySize
    ∧ public_bytes_length c2 k2 = Except.ok c2.PublicKeySize :=
  ⟨rfl, rfl⟩

/-- C5: round-trip on the spec-modelled concrete key type: for every
instance, from_secret_bytes applied to the bytes that write_secret_bytes
emitted into a fresh sink succeeds, and the reconstructed instance writes
byte-for-byte identical output. -/
theorem secret_bytes_roundtrip (k : SpecKey) :
    ∃ k2 : SpecKey,
      SpecKey.cap.from_secret_bytes (write_secret_bytes SpecKey.cap k listSink []).2
        = Except.ok k2
      ∧ write_secret_bytes SpecKey.cap k2 listSink []
          = write_secret_bytes SpecKey.cap k listSink [] := by
  cases k with
  | mk s hs =>
    refine ⟨⟨s, hs⟩, ?_, rfl⟩
    simp [SpecKey.cap, write_secret_bytes, listSink, SpecKey.mk_from_secret_bytes, hs]

/-- C6: for every instance, write_public_bytes returns exactly the sink
write result applied to the public view (the view is present by the type of
with_public_bytes, so there is no MissingSecretKey path), and under the
implementer contract the view length equals the declared PublicKeySize. -/
theorem public_bytes_present {K S : Type} (c : KeyPublicBytes K) (k : K)
    (wb : WriteBuffer S) (s : S) :
    write_public_bytes c k wb s = wb.buffer_write s (c.with_public_bytes k)
    ∧ (PublicLenContract c → (c.with_public_bytes k).length = c.PublicKeySize) :=
  ⟨rfl, fun h => h k⟩

/-- C6 witness: at a concrete public capability over Unit with a 2-byte view
and PublicKeySize 2, the write passes through the list sink and the contract
hypothesis is discharged by evaluation. -/
theorem public_bytes_present_witness :
    write_public_bytes pubCap () listSink [] = listSink.buffer_write [] [3, 4]
    ∧ (pubCap.with_public_bytes ()).length = pubCap.PublicKeySize :=
  ⟨(public_bytes_present pubCap () listSink []).1,
   (public_bytes_present pubCap () listSink []).2 (fun _ => rfl)⟩

/-- C7: to_secret_bytes starts from the auto-clearing buffer allocated empty
at capacity exactly 128, delegates the write to write_secret_bytes on that
buffer (propagating its error verbatim), and on a present view returns a
buffer whose contents are exactly the written secret bytes. -/
theorem to_secret_bytes_delegates {K : Type} (c : KeySecretBytes K) (k : K) :
    (SecretBytes.with_capacity 128).capacity = 128
    ∧ (SecretBytes.with_capacity 128).data = []
    ∧ (∀ b, c.with_secret_bytes k = some b →
        ∃ buf : SecretBytes, to_secret_bytes c k = Except.ok buf ∧ buf.data = b)
    ∧ (∀ e, (write_secret_bytes c k SecretBytes.sink (SecretBytes.with_capacity 128)).1
          = Except.error e → to_secret_bytes c k = Except.error e) := by
  refine ⟨rfl, rfl, ?_, ?_⟩
  · intro b hb
    refine ⟨⟨max 128 b.length, b⟩, ?_, rfl⟩
    simp [to_secret_bytes, write_secret_bytes, hb, SecretBytes.sink, SecretBytes.buffer_write,
      SecretBytes.with_capacity]
  · intro e he
    unfold to_secret_bytes
    rcases hw : write_secret_bytes c k SecretBytes.sink (SecretBytes.with_capacity 128)
      with ⟨r, buf⟩
    rw [hw] at he
    cases r with
    | ok u => simp at he
    | error e2 =>
      simp at he
      simp [he]

/-- C7 witness: at concrete capabilities over Unit, the present view [1, 2]
is returned in the allocated buffer, and the absent view propagates the
MissingSecretKey error of write_secret_bytes. -/
theorem to_secret_bytes_delegates_witness :
    (∃ buf : SecretBytes, to_secret_bytes capSome () = Except.ok buf ∧ buf.data = [1, 2])
    ∧ to_secret_bytes capNone () = Except.error (err_kind ErrorKind.MissingSecretKey) :=
  ⟨(to_secret_bytes_delegates capSome ()).2.2.1 [1, 2] rfl,
   (to_secret_bytes_delegates capNone ()).2.2.2 (err_kind ErrorKind.MissingSecretKey) rfl⟩

/-- C8: converting a bare byte span into a Seed yields exactly that span
tagged with the Preferred method. -/
theorem seed_from_bytes_preferred (bytes : List Nat) :
    Seed.from_bytes bytes = Seed.Bytes bytes SeedMethod.Preferred :=
  rfl

/-- C9: when the secret view (resp. the combined keypair view) is absent,
write_secret_bytes (resp. to_keypair_bytes_buffer) fails with
MissingSecretKey and returns the sink state unchanged: the sink write is
never invoked. -/
theorem missing_secret_leaves_sink {K S : Type} (c : KeySecretBytes K) (kp : KeypairBytes K)
    (k : K) (wb : WriteBuffer S) (s : S) :
    (c.with_secret_bytes k = none →
      write_secret_bytes c k wb s = (Except.error (err_kind ErrorKind.MissingSecretKey), s))
    ∧ (kp.with_keypair_bytes k = none →
      to_keypair_bytes_buffer kp k wb s
        = (Except.error (err_kind ErrorKind.MissingSecretKey), s)) := by
  constructor
  · intro h
    simp [write_secret_bytes, h]
  · intro h
    simp [to_keypair_bytes_buffer, h]

/-- C9 witness: at concrete absent-view capabilities over Unit, both writers
leave the non-empty list sink exactly as it was. -/
theorem missing_secret_leaves_sink_witness :
    write_secret_bytes capNone () listSink [7]
      = (Except.error (err_kind ErrorKind.MissingSecretKey), [7])
    ∧ to_keypair_bytes_buffer kpNone () listSink [7]
        = (Except.error (err_kind ErrorKind.MissingSecretKey), [7]) :=
  ⟨(missing_secret_leaves_sink capNone kpNone () listSink [7]).1 rfl,
   (missing_secret_leaves_sink capNone kpNone () listSink [7]).2 rfl⟩

/-- C10: to_public_bytes allocates the same auto-clearing SecretBytes buffer
at capacity exactly 128 and delegates to write_public_bytes; since the public
view is always present and the buffer write always succeeds, it always
returns the buffer holding exactly the public view bytes. -/
theorem to_public_bytes_delegates {K : Type} (c : KeyPublicBytes K) (k : K) :
    (SecretBytes.with_capacity 128).capacity = 128
    ∧ to_public_bytes c k
        = Except.ok ⟨max 128 (c.with_public_bytes k).length, c.with_public_bytes k⟩ := by
  refine ⟨rfl, ?_⟩
  simp [to_public_bytes, write_public_bytes, SecretBytes.sink, SecretBytes.buffer_write,
    SecretBytes.with_capacity]
